import Mathlib

/-!
Shallow embedding of `src/ml_api.py`, a small CLI client that refreshes an
OAuth token, resolves an order or pack identifier to a shipment id, and
downloads a shipping label.

Modelling conventions:
- Python values appearing in the consumed JSON fields (`id`, `pack_id`,
  `shipping.id`, `shipment.id`, token fields) are either integers or
  strings, modelled by `PyVal`; an absent dictionary key is `Option.none`.
- Byte strings are `List Nat` (one entry per byte).
- Network calls are modelled by passing the response of each endpoint as an
  explicit argument (`Except String Record`: `ok` is a 2xx JSON body,
  `error` is the message of the Python exception raised by `http_request`).
- `raise` / `SystemExit` are modelled by `Except.error` carrying the
  formatted message.
-/

namespace MLApi

/-- A Python value stored in one of the JSON fields the client consumes. -/
inductive PyVal where
  | pyInt (n : Int)
  | pyStr (s : String)
  deriving DecidableEq

/-- Python `str(v)` for a `PyVal`. -/
def pyValStr : PyVal → String
  | .pyInt n => toString n
  | .pyStr s => s

/-- Python `str(d.get(k))`: an absent key yields the string "None". -/
def pyOptStr : Option PyVal → String
  | none => "None"
  | some v => pyValStr v

/-- Python truthiness of a `PyVal` (`0` and `""` are falsy). -/
def truthyVal : PyVal → Bool
  | .pyInt n => n != 0
  | .pyStr s => s != ""

/-- Python truthiness of `d.get(k)` (`None`, `0` and `""` are falsy). -/
def truthy : Option PyVal → Bool
  | none => false
  | some v => truthyVal v

/-- A nested dictionary such as the value of `shipping` or `shipment`,
of which only the `id` key is consumed. -/
structure SubRec where
  id : Option PyVal
  deriving DecidableEq

/-- An order or pack record as returned by the platform; only the fields the
client consumes are modelled (`ml_api.py` reads `id`, `pack_id`,
`shipping.id`, `shipment.id`). -/
structure Record where
  id : Option PyVal
  pack_id : Option PyVal
  shipping : Option SubRec
  shipment : Option SubRec
  deriving DecidableEq

/-- Embedding of `matches_identifier` (ml_api.py lines 118-119):
`str(order.get("id")) == identifier or str(order.get("pack_id")) == identifier`. -/
def matches_identifier (order : Record) (identifier : String) : Bool :=
  pyOptStr order.id == identifier || pyOptStr order.pack_id == identifier

/-- `ORDER_URL.format(order_id=...)` (ml_api.py line 31). -/
def order_url (order_id : String) : String :=
  "https://api.mercadolibre.com/orders/" ++ order_id

/-- `PACK_URL.format(pack_id=...)` (ml_api.py line 36). -/
def pack_url (pack_id : String) : String :=
  "https://api.mercadolibre.com/packs/" ++ pack_id

/-- One entry of the `attempts` list built by `find_order_any`: either a
successful response payload or a recorded error string. -/
inductive Attempt where
  | payload (source : String) (url : String) (record : Record)
  | failure (source : String) (url : String) (err : String)
  deriving DecidableEq

/-- The message of the `RuntimeError` raised when no attempt matched
(ml_api.py lines 149-152). -/
def notFoundMsg (order_identifier : String) : String :=
  "No se encontró la orden usando id/pack_id = " ++ order_identifier ++
    ". Verifica seller_id y que el id sea correcto."

/-- Step 2 of `find_order_any` (ml_api.py lines 140-152): try the pack
endpoint, then raise if nothing matched. `attempts` is the list built so
far, `packResp` the outcome of `get_pack`. -/
def find_order_any_packStep (order_identifier : String)
    (packResp : Except String Record) (attempts : List Attempt) :
    Except String (Record × String × List Attempt) :=
  match packResp with
  | .ok pack =>
      let attempts := attempts ++ [.payload "pack" (pack_url order_identifier) pack]
      if matches_identifier pack order_identifier then
        .ok (pack, "pack", attempts)
      else
        .error (notFoundMsg order_identifier)
  | .error exc =>
      let _attempts := attempts ++ [.failure "pack" (pack_url order_identifier) exc]
      .error (notFoundMsg order_identifier)

/-- Embedding of `find_order_any` (ml_api.py lines 122-152). `orderResp` and
`packResp` are the outcomes of the `get_order` and `get_pack` calls
(`.error` when the call raises). `seller_id` and `debug` are accepted and
ignored exactly as in the source. On success returns the record, the
provenance tag and the attempts list; on failure the raised message. -/
def find_order_any (order_identifier : String)
    (orderResp packResp : Except String Record)
    (_seller_id : Option String) (_debug : Bool) :
    Except String (Record × String × List Attempt) :=
  match orderResp with
  | .ok order =>
      let attempts := [Attempt.payload "order" (order_url order_identifier) order]
      if matches_identifier order order_identifier then
        .ok (order, "order", attempts)
      else
        find_order_any_packStep order_identifier packResp attempts
  | .error exc =>
      find_order_any_packStep order_identifier packResp
        [Attempt.failure "order" (order_url order_identifier) exc]

/-- A lookup attempt that produces no match: either the call raised, or it
returned a record that fails `matches_identifier`. -/
def attemptFails (resp : Except String Record) (identifier : String) : Bool :=
  match resp with
  | .error _ => true
  | .ok o => !(matches_identifier o identifier)

/-- The message of the `RuntimeError` raised by `extract_shipping_id`
(ml_api.py line 107). -/
def noShipMsg : String := "El order/pack no tiene shipping_id disponible."

/-- Python `(order.get(key) or {}).get("id")` for a nested record field. -/
def subId : Option SubRec → Option PyVal
  | some s => s.id
  | none => none

/-- Embedding of `extract_shipping_id` (ml_api.py lines 99-108):
`(order.get("shipping") or {}).get("id")`, falling back to
`(order.get("shipment") or {}).get("id")`, raising if still falsy. -/
def extract_shipping_id (order : Record) : Except String PyVal :=
  let shipping_id := subId order.shipping
  let shipping_id := if truthy shipping_id then shipping_id else subId order.shipment
  match shipping_id with
  | some v => if truthyVal v then .ok v else .error noShipMsg
  | none => .error noShipMsg

/-! String helpers modelling the Python `str` methods used by `load_env`. -/

/-- Characters removed by Python `str.strip()` with no argument (the ASCII
fragment; the config fragment modelled here is ASCII). -/
def pyIsWs (c : Char) : Bool :=
  c == ' ' || c == '\t' || c == '\n' || c == '\r' || c == '\x0b' || c == '\x0c'

/-- Remove every leading and trailing character satisfying `p` (the behaviour
of Python `strip`): from the left via `dropWhile`, from the right via
`rdropWhile`. -/
def trimListWith (p : Char → Bool) (l : List Char) : List Char :=
  List.rdropWhile p (List.dropWhile p l)

/-- Python `s.strip()`. -/
def pyStrip (s : String) : String := String.mk (trimListWith pyIsWs s.data)

/-- Python `s.strip(c)` for a one-character argument: removes every leading
and trailing occurrence of `c`. -/
def pyStripChar (c : Char) (s : String) : String :=
  String.mk (trimListWith (· == c) s.data)

/-- The value normalisation applied on line 54 of ml_api.py:
`val.strip().strip(dquote).strip(squote)`. -/
def normVal (v : String) : String :=
  pyStripChar '\x27' (pyStripChar '"' (pyStrip v))

/-- Python `striped.startswith("#")`. -/
def startsWithHash (s : String) : Bool :=
  match s.data with
  | c :: _ => c == '#'
  | [] => false

/-- Python `striped.split("=", 1)` under the guard that `=` occurs: the part
before the first `=` and the part after it. -/
def splitFirstEq (s : String) : String × String :=
  (String.mk (s.data.takeWhile (fun c => !(c == '='))),
   String.mk ((s.data.dropWhile (fun c => !(c == '='))).drop 1))

/-- Python dict assignment `d[k] = v` on an insertion-ordered association
list: replaces the value in place when the key exists, else appends. -/
def dictSet {β : Type} (d : List (String × β)) (k : String) (v : β) :
    List (String × β) :=
  if d.any (fun p => p.1 == k) then
    d.map (fun p => if p.1 == k then (k, v) else p)
  else d ++ [(k, v)]

/-- One iteration of the `for line in fh` loop of `load_env`
(ml_api.py lines 47-54). -/
def processLine (env : List (String × String)) (line : String) :
    List (String × String) :=
  let striped := pyStrip line
  if striped.data.isEmpty || startsWithHash striped then env
  else if !(striped.data.contains '=') then env
  else
    let kv := splitFirstEq striped
    dictSet env (pyStrip kv.1) (normVal kv.2)

/-- Embedding of `load_env` (ml_api.py lines 39-55) over the list of lines of
the config file. Each element is one line without its terminator (the
terminator is whitespace and `strip` removes it, so nothing is lost). -/
def load_env (lines : List String) : List (String × String) :=
  lines.foldl processLine []

/-- Python `env.get(k)`. -/
def envGet (env : List (String × String)) (k : String) : Option String :=
  (env.find? (fun p => p.1 == k)).map (fun p => p.2)

/-- Python truthiness of `env.get(k)` for string values (`None` and the empty
string are falsy). -/
def truthyStrOpt : Option String → Bool
  | none => false
  | some s => s != ""

/-- Python `", ".join(l)`. -/
def pyJoin (sep : String) : List String → String
  | [] => ""
  | [x] => x
  | x :: xs => x ++ sep ++ pyJoin sep xs

/-- Embedding of `ensure_keys` (ml_api.py lines 58-61); the raised
`SystemExit` is the `.error` branch. -/
def ensure_keys (env : List (String × String)) (keys : List String) :
    Except String Unit :=
  let missing := keys.filter (fun k => !(truthyStrOpt (envGet env k)))
  if missing.isEmpty then .ok ()
  else .error ("Faltan variables en .env: " ++ pyJoin ", " missing)

/-! ZIP detection and the save-path rule. -/

/-- The 4-byte ZIP signature `PK\x03\x04` as bytes. -/
def zipMagic : List Nat := [80, 75, 3, 4]

/-- Embedding of `is_zip` (ml_api.py lines 161-162):
`data.startswith(PK-3-4)`. -/
def is_zip (data : List Nat) : Bool := zipMagic.isPrefixOf data

/-- Python `s.lower()` (ASCII fragment). -/
def pyLower (s : String) : String := String.mk (s.data.map Char.toLower)

/-- Python `s.endswith(t)`. -/
def pyEndsWith (s t : String) : Bool := t.data.reverse.isPrefixOf s.data.reverse

/-- Embedding of the save-path adjustment in `main` (ml_api.py lines
235-239): append `.zip` when the payload is ZIP and the lowercased path does
not already end in `.zip`. -/
def finalSavePath (label_bytes : List Nat) (save_path : String) : String :=
  if is_zip label_bytes && !(pyEndsWith (pyLower save_path) ".zip") then
    save_path ++ ".zip"
  else save_path

/-! Token refresher. `json.loads` is modelled on the fragment the token
endpoint returns: a flat object with string keys and string or integer
values, without escape sequences. -/

/-- Whitespace skipped between JSON tokens. -/
def jsonWs (c : Char) : Bool := c == ' ' || c == '\t' || c == '\n' || c == '\r'

/-- Parse a JSON string literal without escape sequences. -/
def parseJStr : List Char → Option (String × List Char)
  | '"' :: rest =>
      match rest.dropWhile (fun c => !(c == '"')) with
      | '"' :: rest3 => some (String.mk (rest.takeWhile (fun c => !(c == '"'))), rest3)
      | _ => none
  | _ => none

/-- Parse a JSON integer: optional minus sign then decimal digits. -/
def parseJInt (l : List Char) : Option (Int × List Char) :=
  let (neg, l1) : Bool × List Char :=
    match l with
    | '-' :: r => (true, r)
    | _ => (false, l)
  let ds := l1.takeWhile Char.isDigit
  let rest := l1.dropWhile Char.isDigit
  if ds.isEmpty then none
  else
    let n : Nat := ds.foldl (fun a c => 10 * a + (c.toNat - 48)) 0
    some (if neg then -(n : Int) else (n : Int), rest)

/-- Parse a JSON value of the modelled fragment (string or integer). -/
def parseJVal (l : List Char) : Option (PyVal × List Char) :=
  match parseJStr l with
  | some (s, r) => some (.pyStr s, r)
  | none =>
      match parseJInt l with
      | some (n, r) => some (.pyInt n, r)
      | none => none

/-- Parse the comma-separated members of a JSON object, fuel-bounded; stops
before the closing brace. -/
def parseJMembers : Nat → List Char → Option (List (String × PyVal) × List Char)
  | 0, _ => none
  | fuel + 1, l => do
      let (k, r1) ← parseJStr (l.dropWhile jsonWs)
      match r1.dropWhile jsonWs with
      | ':' :: r3 => do
          let (v, r4) ← parseJVal (r3.dropWhile jsonWs)
          match r4.dropWhile jsonWs with
          | ',' :: r6 => do
              let (ms, r7) ← parseJMembers fuel r6
              some ((k, v) :: ms, r7)
          | r5 => some ([(k, v)], r5)
      | _ => none

/-- Model of Python `json.loads` on a flat object of the fragment above;
`none` is a raised `JSONDecodeError` (or an input outside the fragment).
Duplicate keys follow dict semantics: the last occurrence wins. -/
def jsonLoads (s : String) : Option (List (String × PyVal)) :=
  match s.data.dropWhile jsonWs with
  | '\x7b' :: rest =>
      match rest.dropWhile jsonWs with
      | '\x7d' :: rest2 =>
          if (rest2.dropWhile jsonWs).isEmpty then some [] else none
      | _ =>
          match parseJMembers rest.length rest with
          | some (ms, r) =>
              match r.dropWhile jsonWs with
              | '\x7d' :: r2 =>
                  if (r2.dropWhile jsonWs).isEmpty then
                    some (ms.foldl (fun d p => dictSet d p.1 p.2) [])
                  else none
              | _ => none
          | none => none
  | _ => none

/-- Python rendering of a `PyVal` inside a dict display (`str(dict)` calls
`repr` on the elements; strings gain single quotes). -/
def pyReprVal : PyVal → String
  | .pyInt n => toString n
  | .pyStr s => "\x27" ++ s ++ "\x27"

/-- Python `str(d)` for a string-keyed dict, as interpolated by the f-string
on ml_api.py line 88. -/
def pyReprDict (d : List (String × PyVal)) : String :=
  "\x7b" ++ pyJoin ", " (d.map (fun p => "\x27" ++ p.1 ++ "\x27: " ++ pyReprVal p.2)) ++ "\x7d"

/-- Python `k in d` for the parsed token dict. -/
def hasKey (d : List (String × PyVal)) (k : String) : Bool :=
  d.any (fun p => p.1 == k)

/-- Embedding of `refresh_access_token` (ml_api.py lines 76-89) from the
point the HTTP response body `raw` has been received: `json.loads(raw)`
followed by the `access_token` presence check. -/
def refresh_access_token (raw : String) : Except String (List (String × PyVal)) :=
  match jsonLoads raw with
  | none => .error "JSONDecodeError"
  | some token_info =>
      if hasKey token_info "access_token" then .ok token_info
      else .error ("Respuesta inesperada al refrescar token: " ++ pyReprDict token_info)

/-! Substring containment, used to state that an error message names the
identifier or a key. -/

/-- Does `needle` occur as a contiguous segment of the list. -/
def hasSegAux (needle : List Char) : List Char → Bool
  | [] => needle.isEmpty
  | c :: rest => needle.isPrefixOf (c :: rest) || hasSegAux needle rest

/-- Python `needle in hay` for strings. -/
def strHasSub (hay needle : String) : Bool := hasSegAux needle.data hay.data

/-! Helper lemmas. -/

theorem isPrefixOf_self_append {α : Type} [BEq α] [LawfulBEq α] (s t : List α) :
    s.isPrefixOf (s ++ t) = true := by
  induction s with
  | nil => simp [List.isPrefixOf]
  | cons a s ih => simp [List.isPrefixOf, ih]

theorem isPrefixOf_iff_append {α : Type} [BEq α] [LawfulBEq α] (s l : List α) :
    s.isPrefixOf l = true ↔ ∃ t, l = s ++ t := by
  induction s generalizing l with
  | nil => simp [List.isPrefixOf]
  | cons a s ih =>
      cases l with
      | nil => simp [List.isPrefixOf]
      | cons b l =>
          simp only [List.isPrefixOf, Bool.and_eq_true, beq_iff_eq, ih, List.cons_append,
            List.cons.injEq]
          constructor
          · rintro ⟨rfl, t, rfl⟩
            exact ⟨t, rfl, rfl⟩
          · rintro ⟨t, rfl, rfl⟩
            exact ⟨rfl, t, rfl⟩

theorem hasSegAux_append_left {n : List Char} {l : List Char} (a : List Char)
    (h : hasSegAux n l = true) : hasSegAux n (a ++ l) = true := by
  induction a with
  | nil => simpa using h
  | cons c a ih => simp [hasSegAux, ih]

theorem hasSegAux_middle (a n b : List Char) : hasSegAux n (a ++ n ++ b) = true := by
  rw [List.append_assoc]
  apply hasSegAux_append_left
  cases n with
  | nil =>
      cases b with
      | nil => rfl
      | cons c b => simp [hasSegAux, List.isPrefixOf]
  | cons c n => simp [hasSegAux, isPrefixOf_self_append]

/-- The message produced by `pyJoin` contains every joined element. -/
theorem hasSegAux_of_mem {k : String} {l : List String} (sep : String) (h : k ∈ l) :
    hasSegAux k.data (pyJoin sep l).data = true := by
  induction l with
  | nil => cases h
  | cons x xs ih =>
      rcases List.mem_cons.mp h with rfl | hmem
      · cases xs with
        | nil =>
            simpa using hasSegAux_middle [] k.data []
        | cons y ys =>
            have : (pyJoin sep (k :: y :: ys)).data =
                [] ++ k.data ++ (sep ++ pyJoin sep (y :: ys)).data := by
              simp [pyJoin, String.data_append]
            rw [this]
            exact hasSegAux_middle [] k.data _
      · cases xs with
        | nil => cases hmem
        | cons y ys =>
            have : (pyJoin sep (x :: y :: ys)).data =
                (x ++ sep).data ++ (pyJoin sep (y :: ys)).data := by
              simp [pyJoin, String.data_append]
            rw [this]
            exact hasSegAux_append_left _ (ih hmem)

theorem strHasSub_of_decomp (a m b : String) :
    strHasSub (a ++ m ++ b) m = true := by
  unfold strHasSub
  rw [String.data_append, String.data_append]
  exact hasSegAux_middle a.data m.data b.data

theorem dropWhile_append_cons {p : Char → Bool} (a : List Char) (c : Char)
    (b : List Char) (h : p c = false) :
    List.dropWhile p (a ++ c :: b) = List.dropWhile p a ++ c :: b := by
  rw [List.dropWhile_append]
  by_cases he : (List.dropWhile p a).isEmpty
  · rw [if_pos he, List.isEmpty_iff.mp he, List.dropWhile_cons_of_neg (by simp [h])]
    rfl
  · rw [if_neg he]

theorem rdropWhile_middle {p : Char → Bool} (c : Char) (h : p c = false)
    (a l : List Char) :
    List.rdropWhile p (a ++ c :: l) = a ++ c :: List.rdropWhile p l := by
  unfold List.rdropWhile
  rw [List.reverse_append, List.reverse_cons, List.append_assoc,
    List.singleton_append, dropWhile_append_cons _ c _ h, List.reverse_append,
    List.reverse_cons, List.reverse_reverse]
  simp

theorem rdropWhile_cons_of_ne_nil {p : Char → Bool} (c : Char) {l : List Char}
    (h : List.rdropWhile p l ≠ []) :
    List.rdropWhile p (c :: l) = c :: List.rdropWhile p l := by
  unfold List.rdropWhile at *
  rw [List.reverse_cons, List.dropWhile_append]
  have hne : ¬(List.dropWhile p l.reverse).isEmpty := by
    intro hemp
    exact h (by rw [List.isEmpty_iff.mp hemp]; rfl)
  rw [if_neg hne, List.reverse_append]
  rfl

theorem dropWhile_rdropWhile_comm (p : Char → Bool) (l : List Char) :
    List.dropWhile p (List.rdropWhile p l) = List.rdropWhile p (List.dropWhile p l) := by
  induction l with
  | nil => rfl
  | cons c l ih =>
      by_cases hpc : p c = true
      · rw [List.dropWhile_cons_of_pos hpc, ← ih]
        by_cases hnil : List.rdropWhile p l = []
        · have hall : ∀ x ∈ l, p x := List.rdropWhile_eq_nil_iff.mp hnil
          have : List.rdropWhile p (c :: l) = [] := by
            apply List.rdropWhile_eq_nil_iff.mpr
            intro x hx
            rcases List.mem_cons.mp hx with rfl | hx
            · exact hpc
            · exact hall x hx
          rw [this, hnil]
        · rw [rdropWhile_cons_of_ne_nil c hnil, List.dropWhile_cons_of_pos hpc]
      · have hpc' : p c = false := by revert hpc; cases p c <;> simp
        have hcons : List.rdropWhile p (c :: l) = c :: List.rdropWhile p l := by
          simpa using rdropWhile_middle c hpc' [] l
        rw [List.dropWhile_cons_of_neg (by simp [hpc']), hcons,
          List.dropWhile_cons_of_neg (by simp [hpc'])]

theorem trim_rdropWhile (p : Char → Bool) (l : List Char) :
    trimListWith p (List.rdropWhile p l) = trimListWith p l := by
  unfold trimListWith
  rw [dropWhile_rdropWhile_comm, List.rdropWhile_idempotent]

theorem head?_dropWhile_false (p : Char → Bool) (l : List Char) {c : Char}
    (h : (List.dropWhile p l).head? = some c) : p c = false := by
  induction l with
  | nil => cases h
  | cons a l ih =>
      by_cases hpa : p a = true
      · rw [List.dropWhile_cons_of_pos hpa] at h
        exact ih h
      · rw [List.dropWhile_cons_of_neg hpa] at h
        cases h
        revert hpa
        cases p c <;> simp

theorem trim_head_false (p : Char → Bool) (l : List Char) {c : Char}
    (h : (trimListWith p l).head? = some c) : p c = false := by
  have he : trimListWith p l = List.dropWhile p (List.rdropWhile p l) := by
    unfold trimListWith
    exact (dropWhile_rdropWhile_comm p l).symm
  rw [he] at h
  exact head?_dropWhile_false p _ h

theorem trim_getLast_false (p : Char → Bool) (l : List Char) {c : Char}
    (h : (trimListWith p l).getLast? = some c) : p c = false := by
  unfold trimListWith List.rdropWhile at h
  rw [List.getLast?_reverse] at h
  exact head?_dropWhile_false p _ h

theorem mem_of_mem_dropWhile {p : Char → Bool} {x : Char} {l : List Char}
    (h : x ∈ List.dropWhile p l) : x ∈ l := by
  induction l with
  | nil => exact h
  | cons a l ih =>
      by_cases hpa : p a = true
      · rw [List.dropWhile_cons_of_pos hpa] at h
        exact List.mem_cons_of_mem a (ih h)
      · rw [List.dropWhile_cons_of_neg hpa] at h
        exact h

theorem mem_of_mem_trim {p : Char → Bool} {x : Char} {l : List Char}
    (h : x ∈ trimListWith p l) : x ∈ l := by
  unfold trimListWith List.rdropWhile at h
  rw [List.mem_reverse] at h
  have h1 := mem_of_mem_dropWhile h
  rw [List.mem_reverse] at h1
  exact mem_of_mem_dropWhile h1

/-- A line `K=<value>` loads as key `K` with the normalised value: the strip
pipeline of `load_env` applied to everything after the first `=`. -/
theorem processLine_kv (env : List (String × String)) (v : String) :
    processLine env (String.mk ('K' :: '=' :: v.data)) =
      dictSet env "K" (normVal v) := by
  have hstrip : pyStrip (String.mk ('K' :: '=' :: v.data)) =
      String.mk ('K' :: '=' :: List.rdropWhile pyIsWs v.data) := by
    unfold pyStrip trimListWith
    have hd : (String.mk ('K' :: '=' :: v.data)).data = 'K' :: '=' :: v.data := rfl
    rw [hd, List.dropWhile_cons_of_neg (by decide)]
    have := @rdropWhile_middle pyIsWs '=' (by decide) ['K'] v.data
    simp only [List.singleton_append] at this
    rw [this]
  unfold processLine
  rw [hstrip]
  have h1 : (String.mk ('K' :: '=' :: List.rdropWhile pyIsWs v.data)).data.isEmpty
      = false := rfl
  have h2 : startsWithHash (String.mk ('K' :: '=' :: List.rdropWhile pyIsWs v.data))
      = false := rfl
  have h3 : (String.mk ('K' :: '=' :: List.rdropWhile pyIsWs v.data)).data.contains '='
      = true := by
    simp [List.contains_cons]
  have h4 : splitFirstEq (String.mk ('K' :: '=' :: List.rdropWhile pyIsWs v.data)) =
      ("K", String.mk (List.rdropWhile pyIsWs v.data)) := by
    have ht : ∀ w : List Char,
        List.takeWhile (fun c => !(c == '=')) ('K' :: '=' :: w) = ['K'] := by
      intro w
      simp [List.takeWhile]
    have hw : ∀ w : List Char,
        List.dropWhile (fun c => !(c == '=')) ('K' :: '=' :: w) = '=' :: w := by
      intro w
      simp [List.dropWhile]
    unfold splitFirstEq
    have hd : (String.mk ('K' :: '=' :: List.rdropWhile pyIsWs v.data)).data
        = 'K' :: '=' :: List.rdropWhile pyIsWs v.data := rfl
    rw [hd, ht, hw]
    have hk : String.mk ['K'] = "K" := by decide
    rw [List.drop_succ_cons, List.drop_zero, hk]
  have h5 : pyStrip "K" = "K" := by decide
  have h6 : normVal (String.mk (List.rdropWhile pyIsWs v.data)) = normVal v := by
    unfold normVal
    have : pyStrip (String.mk (List.rdropWhile pyIsWs v.data)) = pyStrip v := by
      unfold pyStrip
      have hd : (String.mk (List.rdropWhile pyIsWs v.data)).data
          = List.rdropWhile pyIsWs v.data := rfl
      rw [hd, trim_rdropWhile]
    rw [this]
  simp [h1, h2, h3, h4, h5, h6]

theorem load_env_single (v : String) :
    load_env [String.mk ('K' :: '=' :: v.data)] = [("K", normVal v)] := by
  unfold load_env
  simp only [List.foldl_cons, List.foldl_nil, processLine_kv]
  rfl

/-! Claim theorems. -/

/-- Claim C1: the resolver tries the order lookup first and the pack lookup
second, in that fixed order. A successful order response matching the
identifier is returned tagged "order" (the result does not depend on the
pack response, which appears nowhere in it); when the order attempt raises
or does not match, a successful matching pack response is returned tagged
"pack". -/
theorem find_order_any_priority (identifier : String)
    (oR pR : Except String Record) (sid : Option String) (dbg : Bool) :
    (∀ o, oR = .ok o → matches_identifier o identifier = true →
      find_order_any identifier oR pR sid dbg =
        .ok (o, "order", [.payload "order" (order_url identifier) o])) ∧
    (∀ o p, oR = .ok o → matches_identifier o identifier = false →
      pR = .ok p → matches_identifier p identifier = true →
      find_order_any identifier oR pR sid dbg =
        .ok (p, "pack", [.payload "order" (order_url identifier) o,
          .payload "pack" (pack_url identifier) p])) ∧
    (∀ e p, oR = .error e → pR = .ok p → matches_identifier p identifier = true →
      find_order_any identifier oR pR sid dbg =
        .ok (p, "pack", [.failure "order" (order_url identifier) e,
          .payload "pack" (pack_url identifier) p])) := by
  refine ⟨?_, ?_, ?_⟩
  · rintro o rfl hm
    simp [find_order_any, hm]
  · rintro o p rfl hm rfl hp
    simp [find_order_any, find_order_any_packStep, hm, hp]
  · rintro e p rfl rfl hp
    simp [find_order_any, find_order_any_packStep, hp]

theorem find_order_any_priority_witness :
    find_order_any "10" (.ok ⟨some (.pyInt 10), none, none, none⟩)
        (.error "unused") none false =
      .ok (⟨some (.pyInt 10), none, none, none⟩, "order",
        [.payload "order" (order_url "10") ⟨some (.pyInt 10), none, none, none⟩]) ∧
    find_order_any "10" (.ok ⟨some (.pyInt 7), none, none, none⟩)
        (.ok ⟨some (.pyInt 99), some (.pyInt 10), none, none⟩) none false =
      .ok (⟨some (.pyInt 99), some (.pyInt 10), none, none⟩, "pack",
        [.payload "order" (order_url "10") ⟨some (.pyInt 7), none, none, none⟩,
         .payload "pack" (pack_url "10") ⟨some (.pyInt 99), some (.pyInt 10), none, none⟩]) :=
  ⟨(find_order_any_priority "10" _ _ none false).1 _ rfl (by decide),
   (find_order_any_priority "10" _ _ none false).2.1 _ _ rfl (by decide) rfl (by decide)⟩

/-- Claim C2: when neither lookup produces a matching record the resolver
raises an error whose message names the identifier; an HTTP failure of an
individual lookup is recorded in the attempts list and does not by itself
raise, the resolver proceeding to the pack attempt. -/
theorem find_order_any_error_handling (identifier : String)
    (oR pR : Except String Record) (sid : Option String) (dbg : Bool) :
    (attemptFails oR identifier = true → attemptFails pR identifier = true →
      find_order_any identifier oR pR sid dbg = .error (notFoundMsg identifier) ∧
      strHasSub (notFoundMsg identifier) identifier = true) ∧
    (∀ e r src atts, oR = .error e →
      find_order_any identifier oR pR sid dbg = .ok (r, src, atts) →
      Attempt.failure "order" (order_url identifier) e ∈ atts) ∧
    (∀ e p, oR = .error e → pR = .ok p → matches_identifier p identifier = true →
      find_order_any identifier oR pR sid dbg =
        .ok (p, "pack", [Attempt.failure "order" (order_url identifier) e,
          Attempt.payload "pack" (pack_url identifier) p])) := by
  refine ⟨?_, ?_, ?_⟩
  · intro h1 h2
    refine ⟨?_, strHasSub_of_decomp "No se encontró la orden usando id/pack_id = "
      identifier ". Verifica seller_id y que el id sea correcto."⟩
    rcases oR with e | o
    · rcases pR with e' | p
      · simp [find_order_any, find_order_any_packStep]
      · have hp : matches_identifier p identifier = false := by
          simpa [attemptFails] using h2
        simp [find_order_any, find_order_any_packStep, hp]
    · have ho : matches_identifier o identifier = false := by
        simpa [attemptFails] using h1
      rcases pR with e' | p
      · simp [find_order_any, find_order_any_packStep, ho]
      · have hp : matches_identifier p identifier = false := by
          simpa [attemptFails] using h2
        simp [find_order_any, find_order_any_packStep, ho, hp]
  · rintro e r src atts rfl hok
    rcases pR with e' | p
    · simp [find_order_any, find_order_any_packStep] at hok
    · by_cases hp : matches_identifier p identifier = true
      · simp [find_order_any, find_order_any_packStep, hp] at hok
        obtain ⟨h1, h2, h3⟩ := hok
        subst h3
        simp
      · simp [find_order_any, find_order_any_packStep, hp] at hok
  · rintro e p rfl rfl hp
    simp [find_order_any, find_order_any_packStep, hp]

theorem find_order_any_error_handling_witness :
    (find_order_any "10" (.ok ⟨some (.pyInt 7), none, none, none⟩)
        (.error "HTTP 500") none false = .error (notFoundMsg "10") ∧
      strHasSub (notFoundMsg "10") "10" = true) ∧
    find_order_any "10" (.error "HTTP 404")
        (.ok ⟨some (.pyInt 99), some (.pyInt 10), none, none⟩) none false =
      .ok (⟨some (.pyInt 99), some (.pyInt 10), none, none⟩, "pack",
        [Attempt.failure "order" (order_url "10") "HTTP 404",
         Attempt.payload "pack" (pack_url "10")
           ⟨some (.pyInt 99), some (.pyInt 10), none, none⟩]) :=
  ⟨(find_order_any_error_handling "10" _ _ none false).1 (by decide) (by decide),
   (find_order_any_error_handling "10" _ _ none false).2.2 _ _ rfl rfl (by decide)⟩

/-- Claim C3: `matches_identifier` is true exactly when the string form of
the record's `id` field or the string form of its `pack_id` field equals the
identifier; in particular a record whose own id differs can still match
through `pack_id`, so an identifier colliding across the two namespaces can
select a record whose own id is different. -/
theorem matches_identifier_spec (r : Record) (identifier : String) :
    (matches_identifier r identifier = true ↔
      pyOptStr r.id = identifier ∨ pyOptStr r.pack_id = identifier) ∧
    (pyOptStr r.id ≠ identifier → pyOptStr r.pack_id = identifier →
      matches_identifier r identifier = true) := by
  constructor
  · simp [matches_identifier]
  · intro _ h2
    simp [matches_identifier, h2]

theorem matches_identifier_spec_witness :
    matches_identifier ⟨some (.pyInt 5), some (.pyInt 7), none, none⟩ "7" = true ∧
    pyOptStr (some (.pyInt 5)) ≠ "7" :=
  ⟨(matches_identifier_spec ⟨some (.pyInt 5), some (.pyInt 7), none, none⟩ "7").2
      (by decide) (by decide),
   by decide⟩

/-- Claim C6: the shipment extractor returns the `shipping.id` value when it
is present and truthy; otherwise the `shipment.id` value when that one is
present and truthy; otherwise it raises the no-shipment-id error. -/
theorem extract_shipping_id_spec (r : Record) (v w : PyVal) :
    (subId r.shipping = some v → truthyVal v = true →
      extract_shipping_id r = .ok v) ∧
    (truthy (subId r.shipping) = false → subId r.shipment = some w →
      truthyVal w = true → extract_shipping_id r = .ok w) ∧
    (truthy (subId r.shipping) = false → truthy (subId r.shipment) = false →
      extract_shipping_id r = .error noShipMsg) := by
  refine ⟨?_, ?_, ?_⟩
  · intro h1 h2
    unfold extract_shipping_id
    rw [h1]
    simp [truthy, h2]
  · intro h1 h2 h3
    unfold extract_shipping_id
    simp [h1, h2, h3]
  · intro h1 h2
    unfold extract_shipping_id
    cases hs : subId r.shipment with
    | none => simp [h1, hs]
    | some w' =>
        rw [hs] at h2
        have hw' : truthyVal w' = false := by simpa [truthy] using h2
        simp [h1, hs, hw']

theorem extract_shipping_id_spec_witness :
    extract_shipping_id ⟨none, none, some ⟨some (.pyInt 123)⟩, none⟩ =
      .ok (.pyInt 123) ∧
    extract_shipping_id ⟨none, none, none, some ⟨some (.pyInt 456)⟩⟩ =
      .ok (.pyInt 456) ∧
    extract_shipping_id ⟨none, none, none, none⟩ = .error noShipMsg :=
  ⟨(extract_shipping_id_spec ⟨none, none, some ⟨some (.pyInt 123)⟩, none⟩
      (.pyInt 123) (.pyInt 123)).1 rfl (by decide),
   (extract_shipping_id_spec ⟨none, none, none, some ⟨some (.pyInt 456)⟩⟩
      (.pyInt 456) (.pyInt 456)).2.1 (by decide) rfl (by decide),
   (extract_shipping_id_spec ⟨none, none, none, none⟩
      (.pyInt 0) (.pyInt 0)).2.2 (by decide) (by decide)⟩

theorem strHasSub_append_self (a m : String) : strHasSub (a ++ m) m = true := by
  unfold strHasSub
  rw [String.data_append]
  have := hasSegAux_middle a.data m.data []
  simpa using this

theorem missing_filter_ne_empty {env : List (String × String)} {keys : List String}
    {k : String} (hk : k ∈ keys) (hfalse : truthyStrOpt (envGet env k) = false) :
    (keys.filter (fun k => !(truthyStrOpt (envGet env k)))).isEmpty = false := by
  have hmem : k ∈ keys.filter (fun k => !(truthyStrOpt (envGet env k))) :=
    List.mem_filter.mpr ⟨hk, by simp [hfalse]⟩
  by_cases hIE : (keys.filter (fun k => !(truthyStrOpt (envGet env k)))).isEmpty = true
  · rw [List.isEmpty_iff.mp hIE] at hmem
    exact absurd hmem (List.not_mem_nil k)
  · simpa using hIE

/-- Claim C7: `ensure_keys` terminates the process (raises `SystemExit`)
exactly when some required key is missing or maps to an empty value, and the
message of that error names every such key, not just the first. -/
theorem ensure_keys_spec (env : List (String × String)) (keys : List String) :
    ((∃ msg, ensure_keys env keys = .error msg) ↔
      ∃ k ∈ keys, truthyStrOpt (envGet env k) = false) ∧
    (∀ k msg, k ∈ keys → truthyStrOpt (envGet env k) = false →
      ensure_keys env keys = .error msg → strHasSub msg k = true) := by
  constructor
  · constructor
    · rintro ⟨msg, hmsg⟩
      by_contra hnone
      push_neg at hnone
      have hfil : keys.filter (fun k => !(truthyStrOpt (envGet env k))) = [] := by
        apply List.filter_eq_nil_iff.mpr
        intro a ha
        have := hnone a ha
        revert this
        cases truthyStrOpt (envGet env a) <;> simp
      simp [ensure_keys, hfil] at hmsg
    · rintro ⟨k, hk, hfalse⟩
      have hne := missing_filter_ne_empty hk hfalse
      exact ⟨"Faltan variables en .env: " ++ pyJoin ", "
        (keys.filter (fun k => !(truthyStrOpt (envGet env k)))),
        by simp [ensure_keys, hne]⟩
  · intro k msg hk hfalse hmsg
    have hne := missing_filter_ne_empty hk hfalse
    have hmem : k ∈ keys.filter (fun k => !(truthyStrOpt (envGet env k))) :=
      List.mem_filter.mpr ⟨hk, by simp [hfalse]⟩
    simp [ensure_keys, hne] at hmsg
    rw [← hmsg]
    unfold strHasSub
    rw [String.data_append]
    exact hasSegAux_append_left _ (hasSegAux_of_mem ", " hmem)

theorem ensure_keys_spec_witness :
    strHasSub "Faltan variables en .env: B, C" "C" = true ∧
    (∃ msg, ensure_keys [("A", "1"), ("B", "")] ["A", "B", "C"] = .error msg) :=
  ⟨(ensure_keys_spec [("A", "1"), ("B", "")] ["A", "B", "C"]).2 "C"
      "Faltan variables en .env: B, C" (by decide) (by decide) rfl,
   (ensure_keys_spec [("A", "1"), ("B", "")] ["A", "B", "C"]).1.mpr
      ⟨"B", by decide, by decide⟩⟩

/-- Claim C8 counterexample: a ZIP payload saved to the path `A.ZIP` — which
does not end in the literal `.zip` — is left unchanged by the code (the
check lowercases the path first), while the claim requires `.zip` to be
appended. -/
theorem finalSavePath_counterexample :
    is_zip [80, 75, 3, 4] = true ∧
    pyEndsWith "A.ZIP" ".zip" = false ∧
    finalSavePath [80, 75, 3, 4] "A.ZIP" = "A.ZIP" ∧
    ("A.ZIP" : String) ≠ "A.ZIP" ++ ".zip" := by
  refine ⟨by decide, by decide, by decide, by decide⟩

/-- Claim C8 (amended): the comparison is on the lowercased path. A ZIP
payload saved to a path whose lowercase form does not end in `.zip` gets
`.zip` appended; a path whose lowercase form already ends in `.zip` is kept;
a non-ZIP payload never alters the path. -/
theorem finalSavePath_spec (b : List Nat) (p : String) :
    (is_zip b = true → pyEndsWith (pyLower p) ".zip" = false →
      finalSavePath b p = p ++ ".zip") ∧
    (pyEndsWith (pyLower p) ".zip" = true → finalSavePath b p = p) ∧
    (is_zip b = false → finalSavePath b p = p) := by
  refine ⟨?_, ?_, ?_⟩
  · intro h1 h2
    simp [finalSavePath, h1, h2]
  · intro h
    simp [finalSavePath, h]
  · intro h
    simp [finalSavePath, h]

theorem finalSavePath_spec_witness :
    finalSavePath [80, 75, 3, 4] "label.txt" = "label.txt" ++ ".zip" ∧
    finalSavePath [80, 75, 3, 4] "label.zip" = "label.zip" ∧
    finalSavePath [1, 2, 3] "label.txt" = "label.txt" :=
  ⟨(finalSavePath_spec [80, 75, 3, 4] "label.txt").1 (by decide) (by decide),
   (finalSavePath_spec [80, 75, 3, 4] "label.zip").2.1 (by decide),
   (finalSavePath_spec [1, 2, 3] "label.txt").2.2 (by decide)⟩

/-- Claim C9: `is_zip` is true exactly when the byte sequence begins with
the 4-byte signature 80, 75, 3, 4 (`PK\x03\x04`), whatever follows; any
shorter sequence is classified as not ZIP. -/
theorem is_zip_spec (d : List Nat) :
    (is_zip d = true ↔ ∃ rest, d = [80, 75, 3, 4] ++ rest) ∧
    (d.length < 4 → is_zip d = false) := by
  have hiff := isPrefixOf_iff_append [80, 75, 3, 4] d
  constructor
  · exact hiff
  · intro hlen
    cases hz : is_zip d with
    | false => rfl
    | true =>
        exfalso
        obtain ⟨rest, rfl⟩ := hiff.mp hz
        simp [List.length_append] at hlen
        omega

theorem is_zip_spec_witness :
    is_zip [80, 75, 3, 4, 9, 9] = true ∧ is_zip [80, 75] = false :=
  ⟨(is_zip_spec [80, 75, 3, 4, 9, 9]).1.mpr ⟨[9, 9], rfl⟩,
   (is_zip_spec [80, 75]).2 (by decide)⟩

/-- Claim C10: a non-blank, non-comment config line containing no `=` is
silently skipped: it changes no accumulated environment and the final
mapping is the one computed without the line, with no error raised. -/
theorem load_env_skips_malformed (pre post : List String) (line : String)
    (hne : (pyStrip line).data.isEmpty = false)
    (hnc : startsWithHash (pyStrip line) = false)
    (heq : line.data.contains '=' = false) :
    (∀ env, processLine env line = env) ∧
    load_env (pre ++ line :: post) = load_env (pre ++ post) := by
  have hskip : ∀ env, processLine env line = env := by
    intro env
    have hsc : ¬ '=' ∈ (pyStrip line).data := by
      intro hmem
      have hline : '=' ∈ line.data := mem_of_mem_trim hmem
      have : line.data.contains '=' = true := List.elem_iff.mpr hline
      rw [heq] at this
      cases this
    unfold processLine
    simp [hne, hnc, hsc]
  refine ⟨hskip, ?_⟩
  unfold load_env
  rw [List.foldl_append, List.foldl_append, List.foldl_cons, hskip]

theorem load_env_skips_malformed_witness :
    ((pyStrip "bogus line").data.isEmpty = false ∧
      startsWithHash (pyStrip "bogus line") = false ∧
      ("bogus line" : String).data.contains '=' = false) ∧
    load_env ["A=1", "bogus line", "B=2"] = load_env ["A=1", "B=2"] :=
  ⟨⟨by decide, by decide, by decide⟩,
   (load_env_skips_malformed ["A=1"] ["B=2"] "bogus line" (by decide) (by decide)
      (by decide)).2⟩

/-- Claim C4 counterexample: the config value written `""x""` loses both
layers of double quotes (the loader keeps none, not one), and the unmatched
quote of `"x` is stripped as well, contradicting the claim. -/
theorem load_env_quotes_counterexample :
    load_env ["K=\"\"x\"\""] = [("K", "x")] ∧
    load_env ["K=\"x"] = [("K", "x")] ∧
    ("x" : String) ≠ "\"x\"" := by
  refine ⟨by decide, by decide, by decide⟩

/-- Claim C4 (amended): the loader strips surrounding whitespace and then
every leading and trailing double-quote character, then every leading and
trailing single-quote character (Python `strip` semantics): the loaded value
of a line `K=<value>` is exactly that normalisation of the value, the result
of a quote strip never begins or ends with the stripped quote character, so
a doubly quoted value loses all layers and an unmatched quote is removed
too. -/
theorem load_env_value_stripping (v : String) (c : Char) (s : String) :
    load_env [String.mk ('K' :: '=' :: v.data)] = [("K", normVal v)] ∧
    ((pyStripChar c s).data.head? = some c → False) ∧
    ((pyStripChar c s).data.getLast? = some c → False) := by
  refine ⟨load_env_single v, ?_, ?_⟩
  · intro h
    have := trim_head_false (· == c) s.data h
    simp at this
  · intro h
    have := trim_getLast_false (· == c) s.data h
    simp at this

theorem load_env_value_stripping_witness :
    load_env [String.mk ('K' :: '=' :: (" \"\"x\"\" " : String).data)] =
      [("K", normVal " \"\"x\"\" ")] ∧
    normVal " \"\"x\"\" " = "x" ∧
    ((pyStripChar '"' "\"\"x").data.head? = some '"' → False) :=
  ⟨(load_env_value_stripping " \"\"x\"\" " '"' "\"\"x").1,
   by decide,
   (load_env_value_stripping " \"\"x\"\" " '"' "\"\"x").2.1⟩

/-- Claim C5 counterexample: for a token-endpoint body lacking
`access_token` the refresher fails, but the message carries the Python
rendering of the parsed dict, not the raw body: the raw body is not a
substring of the message. -/
theorem refresh_access_token_counterexample :
    refresh_access_token "\x7b\"error\": \"invalid_grant\"\x7d" =
      .error "Respuesta inesperada al refrescar token: \x7b\x27error\x27: \x27invalid_grant\x27\x7d" ∧
    strHasSub
      "Respuesta inesperada al refrescar token: \x7b\x27error\x27: \x27invalid_grant\x27\x7d"
      "\x7b\"error\": \"invalid_grant\"\x7d" = false := by
  refine ⟨rfl, by decide⟩

/-- Claim C5 (amended): when the parsed token-endpoint response lacks
`access_token` the refresher fails, and the error message contains the
Python string form of the parsed JSON object rather than the raw body. -/
theorem refresh_access_token_missing_token (raw : String)
    (d : List (String × PyVal)) (hparse : jsonLoads raw = some d)
    (hmiss : hasKey d "access_token" = false) :
    refresh_access_token raw =
      .error ("Respuesta inesperada al refrescar token: " ++ pyReprDict d) ∧
    strHasSub ("Respuesta inesperada al refrescar token: " ++ pyReprDict d)
      (pyReprDict d) = true := by
  constructor
  · unfold refresh_access_token
    rw [hparse]
    simp [hmiss]
  · exact strHasSub_append_self "Respuesta inesperada al refrescar token: " (pyReprDict d)

theorem refresh_access_token_missing_token_witness :
    refresh_access_token "\x7b\"expires_in\": 21600\x7d" =
      .error ("Respuesta inesperada al refrescar token: " ++
        pyReprDict [("expires_in", .pyInt 21600)]) ∧
    strHasSub ("Respuesta inesperada al refrescar token: " ++
        pyReprDict [("expires_in", .pyInt 21600)])
      (pyReprDict [("expires_in", .pyInt 21600)]) = true :=
  refresh_access_token_missing_token "\x7b\"expires_in\": 21600\x7d"
    [("expires_in", .pyInt 21600)] (by decide) (by decide)

end MLApi
